import Mathlib

/-!
# CSV Ingestion & Validation Pipeline — shallow embedding

Embedding of the pipeline in `src/src/components/CSVUpload.tsx`:
the intake guard of `processFile` (size check, then extension check),
`validateCSVContent` (empty check, row limit, header regex, stateful
injection-pattern scan), `sanitizeCell`, and the preview truncation
`sanitizedData.slice(0, 5)`.

Strings are modelled as their character sequences (`List Char`); cells keep
the `String` type at the API surface.  The two injection regexes are created
once per `validateCSVContent` call with the `g` flag and used via
`RegExp.prototype.test`, so their `lastIndex` persists from one cell to the
next inside a single validation pass; the embedding threads that state
explicitly (`ScanState`).
-/

/-- JavaScript word character class `\w` = `[A-Za-z0-9_]` (ASCII). -/
def isWordChar (c : Char) : Bool :=
  c.isAlpha || c.isDigit || c = '_'

/-- JavaScript whitespace class `\s` (also the set removed by
`String.prototype.trim`): tab, LF, VT, FF, CR, space, NBSP, and the
Unicode space separators plus LS, PS and the BOM. -/
def isSpaceJS (c : Char) : Bool :=
  c = ' ' || c = '\t' || c = '\n' || c = '\r' ||
  c = Char.ofNat 11 || c = Char.ofNat 12 ||
  c = Char.ofNat 0xA0 || c = Char.ofNat 0x1680 ||
  (0x2000 ≤ c.toNat && c.toNat ≤ 0x200A) ||
  c = Char.ofNat 0x2028 || c = Char.ofNat 0x2029 ||
  c = Char.ofNat 0x202F || c = Char.ofNat 0x205F ||
  c = Char.ofNat 0x3000 || c = Char.ofNat 0xFEFF

/-- Case-insensitive character comparison, as the regex `i` flag
canonicalizes ASCII letters. -/
def charCI (p c : Char) : Bool := p.toLower = c.toLower

/-- Does `s` start with the pattern `pat`, case-insensitively? -/
def startsWithCI : List Char → List Char → Bool
  | [], _ => true
  | _ :: _, [] => false
  | p :: ps, c :: cs => charCI p c && startsWithCI ps cs

/-- No word boundary blocker on the left: `\b` holds before a word
character iff the preceding character (if any) is not a word character. -/
def noWordBefore : Option Char → Bool
  | none => true
  | some c => !isWordChar c

/-- `\b` holds after a word character iff the following suffix is empty or
starts with a non-word character. -/
def noWordAfter : List Char → Bool
  | [] => true
  | c :: _ => !isWordChar c

/-- The reserved words of the SQL alternation in `sqlPatterns`
(`CSVUpload.tsx` line 49), in source order. -/
def sqlKeywords : List (List Char) :=
  ["SELECT", "INSERT", "UPDATE", "DELETE", "DROP",
   "CREATE", "ALTER", "EXEC", "UNION"].map String.toList

/-- The literal alternatives of `sqlPatterns`, in source order. -/
def sqlLiterals : List (List Char) :=
  ["--", ";", "/*", "*/", "xp_", "sp_"].map String.toList

/-- Match of `\bKEYWORD\b` at the current position (`prev` is the character
just before the position, `s` the suffix from the position on). -/
def matchKeywordAt (prev : Option Char) (s k : List Char) : Option Nat :=
  if startsWithCI k s && noWordBefore prev && noWordAfter (s.drop k.length) then
    some k.length
  else none

/-- Match of the whole `sqlPatterns` alternation at one position, returning
the length of the match (alternatives tried in source order). -/
def matchSqlAt (prev : Option Char) (s : List Char) : Option Nat :=
  match sqlKeywords.findSome? (matchKeywordAt prev s) with
  | some n => some n
  | none =>
    sqlLiterals.findSome? fun l =>
      if startsWithCI l s then some l.length else none

/-- Leftmost `sqlPatterns` match in the suffix `s` whose first position has
absolute index `i` and is preceded by `prev`; returns the absolute end
index of the match. -/
def sqlFindEnd : Option Char → List Char → Nat → Option Nat
  | _, [], _ => none
  | prev, c :: cs, i =>
    match matchSqlAt prev (c :: cs) with
    | some len => some (i + len)
    | none => sqlFindEnd (some c) cs (i + 1)

/-- Index (relative to `s`) of the first case-insensitive occurrence of
the closing tag in `s`. -/
def findCloseScript : List Char → Option Nat
  | [] => none
  | c :: cs =>
    if startsWithCI ("</script>".toList) (c :: cs) then some 0
    else (findCloseScript cs).map (· + 1)

/-- Match of the event-handler alternative `on\w+\s*=` at one position. -/
def matchOnAttr : List Char → Option Nat
  | c0 :: c1 :: rest =>
    if charCI 'o' c0 && charCI 'n' c1 then
      let w := rest.takeWhile isWordChar
      if w.isEmpty then none
      else
        let r1 := rest.drop w.length
        let sp := r1.takeWhile isSpaceJS
        match r1.drop sp.length with
        | '=' :: _ => some (2 + w.length + sp.length + 1)
        | _ => none
    else none
  | _ => none

/-- Match of the `scriptPatterns` alternation (`CSVUpload.tsx` line 50) at
one position: a `<script…>…</script>` element (ending at the first closing
tag), the literal `javascript:`, or an `on…=` attribute. -/
def matchScriptAt (s : List Char) : Option Nat :=
  let alt1 : Option Nat :=
    if startsWithCI ("<script".toList) s && noWordAfter (s.drop 7) then
      match findCloseScript (s.drop 7) with
      | some j => some (7 + j + 9)
      | none => none
    else none
  match alt1 with
  | some n => some n
  | none =>
    if startsWithCI ("javascript:".toList) s then some 11
    else matchOnAttr s

/-- Leftmost `scriptPatterns` match in the suffix `s` starting at absolute
index `i`; returns the absolute end index. -/
def scriptFindEnd : List Char → Nat → Option Nat
  | [], _ => none
  | c :: cs, i =>
    match matchScriptAt (c :: cs) with
    | some len => some (i + len)
    | none => scriptFindEnd cs (i + 1)

/-- `RegExp.prototype.test` on the `g`-flagged `sqlPatterns` object: search
from `lastIndex`; on success return `true` and the new `lastIndex` (the
match end), on failure return `false` and reset `lastIndex` to `0`. -/
def sqlTestStep (last : Nat) (s : List Char) : Bool × Nat :=
  if last ≤ s.length then
    match sqlFindEnd (if last = 0 then none else s[last - 1]?) (s.drop last) last with
    | some e => (true, e)
    | none => (false, 0)
  else (false, 0)

/-- `RegExp.prototype.test` on the `g`-flagged `scriptPatterns` object. -/
def scriptTestStep (last : Nat) (s : List Char) : Bool × Nat :=
  if last ≤ s.length then
    match scriptFindEnd (s.drop last) last with
    | some e => (true, e)
    | none => (false, 0)
  else (false, 0)

/-- The mutable `lastIndex` fields of the two `g`-flagged regex objects,
shared across all cells of one `validateCSVContent` call. -/
structure ScanState where
  sqlLast : Nat
  scriptLast : Nat
deriving DecidableEq

/-- `Potential SQL injection detected at row ${rowIndex + 1}, column
${colIndex + 1}` (indices 0-based as in the source). -/
def sqlMsg (r c : Nat) : String :=
  "Potential SQL injection detected at row " ++ Nat.repr (r + 1) ++
    ", column " ++ Nat.repr (c + 1)

/-- `Potential script injection detected at row …, column …`. -/
def scriptMsg (r c : Nat) : String :=
  "Potential script injection detected at row " ++ Nat.repr (r + 1) ++
    ", column " ++ Nat.repr (c + 1)

/-- The body of the inner `forEach`: test one cell against both patterns,
pushing a violation for each hit and carrying the regex state. -/
def scanCell (st : ScanState) (r c : Nat) (cell : String) :
    List String × ScanState :=
  let ps := sqlTestStep st.sqlLast cell.toList
  let qs := scriptTestStep st.scriptLast cell.toList
  ((if ps.1 then [sqlMsg r c] else []) ++ (if qs.1 then [scriptMsg r c] else []),
   ⟨ps.2, qs.2⟩)

/-- Scan the cells of row `r` starting at column `c`. -/
def scanRow : ScanState → Nat → Nat → List String → List String × ScanState
  | st, _, _, [] => ([], st)
  | st, r, c, cell :: cells =>
    let p := scanCell st r c cell
    let rest := scanRow p.2 r (c + 1) cells
    (p.1 ++ rest.1, rest.2)

/-- Scan all rows starting at row index `r`. -/
def scanTable : ScanState → Nat → List (List String) → List String × ScanState
  | st, _, [] => ([], st)
  | st, r, row :: rows =>
    let p := scanRow st r 0 row
    let rest := scanTable p.2 (r + 1) rows
    (p.1 ++ rest.1, rest.2)

/-- The violations pushed by the injection scan of `validateCSVContent`,
with both regexes starting at `lastIndex = 0`. -/
def injectionViolations (data : List (List String)) : List String :=
  (scanTable ⟨0, 0⟩ 0 data).1

/-- `headerPattern.test(header)` for `/^[a-zA-Z0-9_\s]+$/`: non-empty and
every character a word character or whitespace. -/
def headerOk (s : String) : Bool :=
  !s.toList.isEmpty && s.toList.all fun c => isWordChar c || isSpaceJS c

/-- `Invalid header at column ${index + 1}: "${header}"`. -/
def headerMsg (colIdx : Nat) (value : String) : String :=
  "Invalid header at column " ++ Nat.repr colIdx ++ ": \"" ++ value ++ "\""

/-- The header `forEach` from column index `i` on. -/
def headerViolationsAux : Nat → List String → List String
  | _, [] => []
  | i, v :: vs =>
    (if headerOk v then [] else [headerMsg (i + 1) v]) ++
      headerViolationsAux (i + 1) vs

/-- Violations pushed by the header check over `data[0]`. -/
def headerViolations (headers : List String) : List String :=
  headerViolationsAux 0 headers

/-- `MAX_ROWS` (`CSVUpload.tsx` line 22). -/
def MAX_ROWS : Nat := 100000

/-- The row-limit check; `MAX_ROWS.toLocaleString()` renders as
`"100,000"` (default en-US grouping). -/
def rowLimitViolations (data : List (List String)) : List String :=
  if data.length > MAX_ROWS then
    ["CSV exceeds maximum row limit of 100,000"]
  else []

/-- The result type of `validateCSVContent`. -/
structure ValidationReport where
  isValid : Bool
  errors : List String
deriving DecidableEq

/-- `validateCSVContent` (`CSVUpload.tsx` lines 24–67): empty-table check
(early return), then row-limit check, header check and injection scan
pushing into one `errors` array, and `isValid = (errors.length === 0)`. -/
def validateCSVContent : List (List String) → ValidationReport
  | [] => ⟨false, ["CSV file is empty"]⟩
  | hd :: tl =>
    let errors :=
      rowLimitViolations (hd :: tl) ++ headerViolations hd ++
        injectionViolations (hd :: tl)
    ⟨errors.isEmpty, errors⟩

/-- The characters removed by `sanitizeCell`:
`<`, `>`, `'`, `"`, the backtick, and `;`. -/
def sanitizeRemoved : List Char :=
  [Char.ofNat 60, Char.ofNat 62, Char.ofNat 39, Char.ofNat 34,
   Char.ofNat 96, Char.ofNat 59]

/-- The two `replace(/…/g, "")` calls of `sanitizeCell` combined: drop
every occurrence of the six removed characters. -/
def removeDangerous (l : List Char) : List Char :=
  l.filter fun c => !sanitizeRemoved.contains c

/-- `String.prototype.trim`: drop leading and trailing whitespace. -/
def trimJS (l : List Char) : List Char :=
  ((l.dropWhile isSpaceJS).reverse.dropWhile isSpaceJS).reverse

/-- `sanitizeCell` (`CSVUpload.tsx` lines 69–74). -/
def sanitizeCell (s : String) : String :=
  String.mk (trimJS (removeDangerous s.toList))

/-- `data.map((row) => row.map(sanitizeCell))`. -/
def sanitizeTable (data : List (List String)) : List (List String) :=
  data.map fun row => row.map sanitizeCell

/-- The preview truncation `sanitizedData.slice(0, 5)`
(`CSVUpload.tsx` line 122). -/
def buildPreview (rows : List (List String)) : List (List String) :=
  rows.take 5

/-- `MAX_FILE_SIZE` = 10 * 1024 * 1024 (`CSVUpload.tsx` line 21). -/
def MAX_FILE_SIZE : Nat := 10485760

/-- The three ways the intake guard of `processFile` can resolve: the two
early `return`s with a destructive toast, or reaching `Papa.parse`. -/
inductive IntakeOutcome
  | fileTooLarge
  | invalidExtension
  | proceedToParse
deriving DecidableEq

/-- The file handle attributes the intake guard inspects. -/
structure CandidateFile where
  name : String
  sizeBytes : Nat

/-- `selectedFile.name.endsWith(".csv")` — exact, case-sensitive suffix. -/
def hasCsvSuffix (name : String) : Bool :=
  ".csv".toList.isSuffixOf name.toList

/-- The intake guard of `processFile` (`CSVUpload.tsx` lines 76–100): size
check first, then extension check; only past both is the parser invoked. -/
def processFileIntake (f : CandidateFile) : IntakeOutcome :=
  if f.sizeBytes > MAX_FILE_SIZE then .fileTooLarge
  else if !hasCsvSuffix f.name then .invalidExtension
  else .proceedToParse

/-! ## Helper lemmas -/

/-- The head of `dropWhile p l`, when present, fails `p`. -/
theorem head?_fails_of_dropWhile {α : Type} (p : α → Bool) (l : List α) :
    ∀ a, (l.dropWhile p).head? = some a → p a = false := by
  intro a h
  have hw := List.head?_dropWhile_not p l
  rw [h] at hw
  exact hw

/-- A list whose head (if any) fails `p` is unchanged by `dropWhile p`. -/
theorem dropWhile_eq_self_of_head {α : Type} (p : α → Bool) (l : List α)
    (h : ∀ a, l.head? = some a → p a = false) : l.dropWhile p = l := by
  cases l with
  | nil => rfl
  | cons a as =>
    have ha : p a = false := h a rfl
    simp [List.dropWhile_cons, ha]

/-- Trimming is idempotent. -/
theorem trimJS_idem (l : List Char) : trimJS (trimJS l) = trimJS l := by
  unfold trimJS
  set u := l.dropWhile isSpaceJS with hu
  set v := u.reverse.dropWhile isSpaceJS with hv
  have htv : v.reverse ++ (u.reverse.takeWhile isSpaceJS).reverse = u := by
    rw [hv, ← List.reverse_append, List.takeWhile_append_dropWhile, List.reverse_reverse]
  have hstep1 : v.reverse.dropWhile isSpaceJS = v.reverse := by
    apply dropWhile_eq_self_of_head
    intro a ha
    have hu_head : u.head? = some a := by
      rw [← htv, List.head?_append, ha]
      rfl
    rw [hu] at hu_head
    exact head?_fails_of_dropWhile isSpaceJS l a hu_head
  have hstep2 : v.dropWhile isSpaceJS = v := by
    apply dropWhile_eq_self_of_head
    intro a ha
    rw [hv] at ha
    exact head?_fails_of_dropWhile isSpaceJS u.reverse a ha
  rw [hstep1, List.reverse_reverse, hstep2]

/-- Every character surviving the trim was in the original list. -/
theorem mem_of_trimJS {c : Char} {l : List Char} (h : c ∈ trimJS l) : c ∈ l := by
  unfold trimJS at h
  rw [List.mem_reverse] at h
  have h2 : c ∈ (l.dropWhile isSpaceJS).reverse :=
    (List.dropWhile_sublist isSpaceJS).subset h
  rw [List.mem_reverse] at h2
  exact (List.dropWhile_sublist isSpaceJS).subset h2

/-- A failing header column contributes its violation, wherever the
`forEach` starts counting. -/
theorem headerViolationsAux_mem (hs : List String) :
    ∀ (k i : Nat) (h : i < hs.length), headerOk hs[i] = false →
      headerMsg (k + i + 1) hs[i] ∈ headerViolationsAux k hs := by
  induction hs with
  | nil => intro k i h hbad; exact absurd h (Nat.not_lt_zero i)
  | cons v vs ih =>
    intro k i h hbad
    cases i with
    | zero =>
      unfold headerViolationsAux
      simp only [List.getElem_cons_zero] at hbad ⊢
      rw [hbad]
      simp
    | succ j =>
      unfold headerViolationsAux
      simp only [List.getElem_cons_succ] at hbad ⊢
      refine List.mem_append.mpr (Or.inr ?_)
      have harith : k + (j + 1) + 1 = (k + 1) + j + 1 := by omega
      rw [harith]
      exact ih (k + 1) j (Nat.lt_of_succ_lt_succ h) hbad

/-- Exactly the failing header columns contribute violations. -/
theorem headerViolationsAux_length (hs : List String) :
    ∀ k, (headerViolationsAux k hs).length =
      (hs.filter fun v => !headerOk v).length := by
  induction hs with
  | nil => intro k; rfl
  | cons v vs ih =>
    intro k
    unfold headerViolationsAux
    rw [List.length_append, ih (k + 1), List.filter_cons]
    cases hv : headerOk v <;> simp [hv, Nat.add_comm]

/-- The negation of the header predicate, in terms of the character
classes: empty, or containing a character outside `[A-Za-z0-9_\s]`. -/
theorem not_headerOk_eq (v : String) :
    (!headerOk v) =
      (v.toList.isEmpty || v.toList.any fun c => !(isWordChar c || isSpaceJS c)) := by
  unfold headerOk
  rw [Bool.not_and, Bool.not_not, List.not_all_eq_any_not]

/-- The errors of a non-empty-table validation are the three checks'
violations in source order. -/
theorem validate_cons_errors (hd : List String) (tl : List (List String)) :
    (validateCSVContent (hd :: tl)).errors =
      rowLimitViolations (hd :: tl) ++ headerViolations hd ++
        injectionViolations (hd :: tl) := rfl

/-! ## Claims -/

/-- C1 (code bug): evaluation of `validateCSVContent` on a table whose two
cells both contain the substring `DROP TABLE`.  Only the first cell is
reported: the `g`-flagged `sqlPatterns` object keeps `lastIndex = 4` after
the first hit, so the second cell is searched only from index 4 onward and
its `DROP` keyword (at index 0) is missed — contradicting the claim that
every matching cell contributes a violation at its row and column. -/
theorem C1_code_eval :
    validateCSVContent [["DROP TABLE", "DROP TABLE"]] =
      ⟨false, ["Potential SQL injection detected at row 1, column 1"]⟩ := by decide

/-- C2 counterexample: the first-row cell `"a\tb"` contains a tab, a
character outside `[A-Za-z0-9_ ]` (letters, digits, underscore, space),
yet `validateCSVContent` reports no violation at all, because the source
pattern `/^[a-zA-Z0-9_\s]+$/` accepts every `\s` character, not only the
space. -/
theorem C2_counterexample :
    ("a\tb".toList.any fun c => !(c.isAlpha || c.isDigit || c = '_' || c = ' ')) = true ∧
      (validateCSVContent [["a\tb"]]).errors = [] := by decide

/-- C2 (amended): a first-row cell containing a character that is neither
in `[A-Za-z0-9_]` nor JavaScript whitespace yields a violation naming its
1-based column index and value, and the header check produces exactly one
violation per failing column (empty, or containing such a character), so
columns whose non-empty value uses only allowed characters produce none. -/
theorem C2_amended_thm (hd : List String) (rest : List (List String)) (i : Nat)
    (h : i < hd.length) :
    ((hd[i].toList.any fun c => !(isWordChar c || isSpaceJS c)) = true →
       headerMsg (i + 1) hd[i] ∈ (validateCSVContent (hd :: rest)).errors) ∧
      (headerViolations hd).length =
        (hd.filter fun v =>
          v.toList.isEmpty || v.toList.any fun c => !(isWordChar c || isSpaceJS c)).length := by
  constructor
  · intro hbad
    have hok : headerOk hd[i] = false := by
      unfold headerOk
      obtain ⟨c, hc, hnc⟩ := List.any_eq_true.mp hbad
      have hcf : (isWordChar c || isSpaceJS c) = false := by simpa using hnc
      have hall : hd[i].toList.all (fun c => isWordChar c || isSpaceJS c) = false :=
        List.all_eq_false.mpr ⟨c, hc, by simp [hcf]⟩
      rw [hall, Bool.and_false]
    have hm := headerViolationsAux_mem hd 0 i h hok
    rw [Nat.zero_add] at hm
    rw [validate_cons_errors]
    exact List.mem_append_left _ (List.mem_append_right _ hm)
  · have h1 : (headerViolations hd).length = (hd.filter fun v => !headerOk v).length :=
      headerViolationsAux_length hd 0
    rw [h1]
    congr 1
    apply List.filter_congr
    intro v _
    exact not_headerOk_eq v

/-- C2 witness: in the table `[["x-y"]]` the dash makes column 1 fail, and
its violation is reported. -/
theorem C2_witness :
    headerMsg (0 + 1) (["x-y"] : List String)[0] ∈ (validateCSVContent [["x-y"]]).errors ∧
      (headerViolations ["x-y"]).length =
        (["x-y"].filter fun v =>
          v.toList.isEmpty || v.toList.any fun c => !(isWordChar c || isSpaceJS c)).length :=
  ⟨(C2_amended_thm ["x-y"] [] 0 (by decide)).1 (by decide),
   (C2_amended_thm ["x-y"] [] 0 (by decide)).2⟩

/-- C3 counterexample: `"a.txt"` does not end in `.csv`, but an oversized
candidate with that name is rejected as `fileTooLarge`, not
`invalidExtension` — the size check runs first. -/
theorem C3_counterexample :
    hasCsvSuffix "a.txt" = false ∧
      processFileIntake ⟨"a.txt", 10485761⟩ ≠ IntakeOutcome.invalidExtension := by decide

/-- C3 (amended): a candidate whose name does not end in `.csv`
(case-sensitively) never reaches the parser; if it is also within the size
limit it is rejected with `invalidExtension`, while an oversized one is
rejected with `fileTooLarge` first. -/
theorem C3_amended_thm (f : CandidateFile) (h : hasCsvSuffix f.name = false) :
    processFileIntake f ≠ IntakeOutcome.proceedToParse ∧
      (f.sizeBytes ≤ MAX_FILE_SIZE → processFileIntake f = IntakeOutcome.invalidExtension) := by
  unfold processFileIntake
  by_cases hs : f.sizeBytes > MAX_FILE_SIZE
  · rw [if_pos hs]
    exact ⟨by decide, fun hle => absurd hs (by omega)⟩
  · rw [if_neg hs, h]
    exact ⟨by decide, fun _ => rfl⟩

/-- C3 witness: `"a.CSV"` (upper case) at a small size is rejected with
`invalidExtension` and never parsed. -/
theorem C3_witness :
    processFileIntake ⟨"a.CSV", 100⟩ = IntakeOutcome.invalidExtension ∧
      processFileIntake ⟨"a.CSV", 100⟩ ≠ IntakeOutcome.proceedToParse :=
  ⟨(C3_amended_thm ⟨"a.CSV", 100⟩ (by decide)).2 (by decide),
   (C3_amended_thm ⟨"a.CSV", 100⟩ (by decide)).1⟩

/-- C4: a candidate strictly larger than 10,485,760 bytes is rejected as
`fileTooLarge` and the parser is never invoked; one of exactly 10,485,760
bytes is not rejected for size. -/
theorem C4_thm (f : CandidateFile) :
    (f.sizeBytes > MAX_FILE_SIZE →
       processFileIntake f = IntakeOutcome.fileTooLarge ∧
         processFileIntake f ≠ IntakeOutcome.proceedToParse) ∧
      (f.sizeBytes = MAX_FILE_SIZE → processFileIntake f ≠ IntakeOutcome.fileTooLarge) := by
  constructor
  · intro hs
    unfold processFileIntake
    rw [if_pos hs]
    exact ⟨rfl, by decide⟩
  · intro heq
    unfold processFileIntake
    have hns : ¬ f.sizeBytes > MAX_FILE_SIZE := by omega
    rw [if_neg hns]
    cases hc : hasCsvSuffix f.name <;> decide

/-- C4 witness: 10,485,761 bytes is rejected as too large; exactly
10,485,760 bytes is not. -/
theorem C4_witness :
    (processFileIntake ⟨"a.txt", 10485761⟩ = IntakeOutcome.fileTooLarge ∧
       processFileIntake ⟨"a.txt", 10485761⟩ ≠ IntakeOutcome.proceedToParse) ∧
      processFileIntake ⟨"b.csv", 10485760⟩ ≠ IntakeOutcome.fileTooLarge :=
  ⟨(C4_thm ⟨"a.txt", 10485761⟩).1 (by decide),
   (C4_thm ⟨"b.csv", 10485760⟩).2 (by decide)⟩

/-- C5: a table with zero rows yields `isValid = false` and exactly the
single violation `"CSV file is empty"`; for every non-empty table the
validator instead runs all three remaining checks and accumulates their
violations — the empty case is the only short-circuit. -/
theorem C5_thm :
    validateCSVContent [] = ⟨false, ["CSV file is empty"]⟩ ∧
      ∀ d : List (List String), d ≠ [] →
        (validateCSVContent d).errors =
          rowLimitViolations d ++ headerViolations (d.headD []) ++ injectionViolations d := by
  refine ⟨rfl, ?_⟩
  intro d hne
  cases d with
  | nil => exact absurd rfl hne
  | cons hd tl => rfl

/-- C5 witness: the non-empty table `[["a"]]` goes through the
accumulating path. -/
theorem C5_witness :
    (validateCSVContent [["a"]]).errors =
      rowLimitViolations [["a"]] ++ headerViolations ([["a"]].headD []) ++
        injectionViolations [["a"]] :=
  C5_thm.2 [["a"]] (by decide)

/-- C6: a table with more than 100,000 rows gets the row-limit violation
first, followed by the header-check and injection-scan violations — the
validator does not stop at the row limit, so an invalid header would add
its violation to the same report. -/
theorem C6_thm (d : List (List String)) (h : d.length > MAX_ROWS) :
    (validateCSVContent d).errors =
      "CSV exceeds maximum row limit of 100,000" ::
        (headerViolations (d.headD []) ++ injectionViolations d) := by
  cases d with
  | nil => exact absurd h (by decide)
  | cons hd tl =>
    rw [validate_cons_errors]
    unfold rowLimitViolations
    rw [if_pos h]
    rfl

/-- C6 witness: 100,001 empty rows trigger the row-limit violation while
the other checks still run. -/
theorem C6_witness :
    (validateCSVContent (List.replicate 100001 ([] : List String))).errors =
      "CSV exceeds maximum row limit of 100,000" ::
        (headerViolations ((List.replicate 100001 ([] : List String)).headD []) ++
          injectionViolations (List.replicate 100001 ([] : List String))) :=
  C6_thm (List.replicate 100001 ([] : List String))
    (by rw [List.length_replicate]; decide)

/-- C7: `sanitizeCell` is idempotent — removing `<`, `>`, `'`, `"`, the
backtick and `;` and then trimming leaves a string that a second pass
keeps unchanged. -/
theorem C7_thm (s : String) : sanitizeCell (sanitizeCell s) = sanitizeCell s := by
  have h1 : (sanitizeCell s).toList = trimJS (removeDangerous s.toList) := rfl
  have hrm : removeDangerous (trimJS (removeDangerous s.toList)) =
      trimJS (removeDangerous s.toList) := by
    unfold removeDangerous
    apply List.filter_eq_self.mpr
    intro a ha
    exact (List.mem_filter.mp (mem_of_trimJS ha)).2
  calc sanitizeCell (sanitizeCell s)
      = String.mk (trimJS (removeDangerous (sanitizeCell s).toList)) := rfl
    _ = String.mk (trimJS (trimJS (removeDangerous s.toList))) := by rw [h1, hrm]
    _ = String.mk (trimJS (removeDangerous s.toList)) := by rw [trimJS_idem]
    _ = sanitizeCell s := rfl

/-- C8: on a table that passed validation, the preview is exactly the
first `min 5 n` rows of the sanitized table, each retained row unchanged
(the preview followed by the dropped rows reassembles the table). -/
theorem C8_thm (t : List (List String)) (_h : (validateCSVContent t).isValid = true) :
    (buildPreview (sanitizeTable t)).length = min 5 (sanitizeTable t).length ∧
      buildPreview (sanitizeTable t) ++ (sanitizeTable t).drop 5 = sanitizeTable t :=
  ⟨List.length_take 5 (sanitizeTable t), List.take_append_drop 5 (sanitizeTable t)⟩

/-- C8 witness: a valid 6-row table previews to its first 5 rows. -/
theorem C8_witness :
    (buildPreview (sanitizeTable [["a"], ["a"], ["a"], ["a"], ["a"], ["a"]])).length =
        min 5 (sanitizeTable [["a"], ["a"], ["a"], ["a"], ["a"], ["a"]]).length ∧
      buildPreview (sanitizeTable [["a"], ["a"], ["a"], ["a"], ["a"], ["a"]]) ++
          (sanitizeTable [["a"], ["a"], ["a"], ["a"], ["a"], ["a"]]).drop 5 =
        sanitizeTable [["a"], ["a"], ["a"], ["a"], ["a"], ["a"]] :=
  C8_thm [["a"], ["a"], ["a"], ["a"], ["a"], ["a"]] (by decide)

/-- C9: for every table, the report is valid exactly when its violation
list is empty. -/
theorem C9_thm (d : List (List String)) :
    (validateCSVContent d).isValid = true ↔ (validateCSVContent d).errors = [] := by
  cases d with
  | nil => decide
  | cons hd tl => exact List.isEmpty_iff

/-- C10: an empty first-row cell fails the header pattern (which requires
at least one character), so its column is reported as an invalid header. -/
theorem C10_thm (hd : List String) (rest : List (List String)) (i : Nat)
    (h : i < hd.length) (he : hd[i] = "") :
    headerMsg (i + 1) "" ∈ (validateCSVContent (hd :: rest)).errors := by
  have hok : headerOk hd[i] = false := by rw [he]; decide
  have hm := headerViolationsAux_mem hd 0 i h hok
  rw [Nat.zero_add, he] at hm
  rw [validate_cons_errors]
  exact List.mem_append_left _ (List.mem_append_right _ hm)

/-- C10 witness: the table `[[""]]` reports an invalid header at
column 1. -/
theorem C10_witness :
    headerMsg (0 + 1) "" ∈ (validateCSVContent [[""]]).errors :=
  C10_thm [""] [] 0 (by decide) (by decide)
